import Mathlib

/-!
Verification of `vectorbt/utils/magic_decorators.py` and `vectorbt/utils/image_.py`.

The Python module is shallowly embedded: a class is a mutable attribute map
(modelled as an explicit state passed through the decoration loop), installed
magic methods are closures capturing their default-argument bindings
(`_translate_func`, `_func`), numpy ufuncs are abstracted as a record of
binary/unary operations over an array-like carrier type `V`, and raised Python
exceptions are `Option`/`Except` values.
-/

namespace Vbt

/-- Python exceptions arising in the embedded code: `KeyError` from a missing
dictionary key, and the error a read-only `Config` raises on mutation. -/
inductive PyError where
  | keyError : String → PyError
  | readOnlyUpdate : PyError
deriving DecidableEq

/-- One catalog entry's settings dictionary, `dict(func=...)`; the `func` key
may be absent (then `settings['func']` raises `KeyError`). Binary form. -/
structure BSettings (V : Type) where
  func : Option (V → V → V)

/-- One catalog entry's settings dictionary, unary form. -/
structure USettings (V : Type) where
  func : Option (V → V)

/-- Embedding of `vectorbt.utils.config.Config` as used by this module: an
ordered mapping (insertion-ordered, unique keys as in a Python dict) plus the
`readonly` and `as_attrs` flags given at construction. -/
structure Config (α : Type) where
  items : List (String × α)
  readonly : Bool
  as_attrs : Bool

/-- Modelled from the spec: item assignment on `vectorbt.utils.config.Config`
(the file `vectorbt/utils/config.py` is not part of the sources). The spec
states the catalog is read-only after construction and every attempted
mutation fails, so assignment on a read-only config returns an error and on a
writable one replaces or appends the binding. -/
def Config.setItem (c : Config α) (k : String) (v : α) : Except PyError (Config α) :=
  if c.readonly then Except.error PyError.readOnlyUpdate
  else Except.ok { c with items := (c.items.filter (fun p => p.1 ≠ k)) ++ [(k, v)] }

/-- Modelled from the spec: item deletion on `vectorbt.utils.config.Config`
(the file `vectorbt/utils/config.py` is not part of the sources); deletion on
a read-only config fails. -/
def Config.delItem (c : Config α) (k : String) : Except PyError (Config α) :=
  if c.readonly then Except.error PyError.readOnlyUpdate
  else Except.ok { c with items := c.items.filter (fun p => p.1 ≠ k) }

/-- The numpy binary ufuncs referenced by `binary_magic_config`, abstracted
over the array-like carrier `V` (they are external to the repository). -/
structure NumpyOps (V : Type) where
  equal : V → V → V
  not_equal : V → V → V
  less : V → V → V
  greater : V → V → V
  less_equal : V → V → V
  greater_equal : V → V → V
  add : V → V → V
  subtract : V → V → V
  multiply : V → V → V
  power : V → V → V
  mod : V → V → V
  floor_divide : V → V → V
  true_divide : V → V → V
  bitwise_and : V → V → V
  bitwise_or : V → V → V
  bitwise_xor : V → V → V

/-- The numpy unary ufuncs referenced by `unary_magic_config`. -/
structure NumpyUnaryOps (V : Type) where
  negative : V → V
  positive : V → V
  absolute : V → V
  invert : V → V

variable {V : Type}

/-- `binary_magic_config` from the source: the `Config` of binary magic
methods, keyed by dunder name, each settings dict carrying `func`; reflected
entries are lambdas swapping the arguments of the direct ufunc. -/
def binary_magic_config (np : NumpyOps V) : Config (BSettings V) :=
  { items :=
      [ ("__eq__", ⟨some np.equal⟩),
        ("__ne__", ⟨some np.not_equal⟩),
        ("__lt__", ⟨some np.less⟩),
        ("__gt__", ⟨some np.greater⟩),
        ("__le__", ⟨some np.less_equal⟩),
        ("__ge__", ⟨some np.greater_equal⟩),
        ("__add__", ⟨some np.add⟩),
        ("__sub__", ⟨some np.subtract⟩),
        ("__mul__", ⟨some np.multiply⟩),
        ("__pow__", ⟨some np.power⟩),
        ("__mod__", ⟨some np.mod⟩),
        ("__floordiv__", ⟨some np.floor_divide⟩),
        ("__truediv__", ⟨some np.true_divide⟩),
        ("__radd__", ⟨some (fun x y => np.add y x)⟩),
        ("__rsub__", ⟨some (fun x y => np.subtract y x)⟩),
        ("__rmul__", ⟨some (fun x y => np.multiply y x)⟩),
        ("__rpow__", ⟨some (fun x y => np.power y x)⟩),
        ("__rmod__", ⟨some (fun x y => np.mod y x)⟩),
        ("__rfloordiv__", ⟨some (fun x y => np.floor_divide y x)⟩),
        ("__rtruediv__", ⟨some (fun x y => np.true_divide y x)⟩),
        ("__and__", ⟨some np.bitwise_and⟩),
        ("__or__", ⟨some np.bitwise_or⟩),
        ("__xor__", ⟨some np.bitwise_xor⟩),
        ("__rand__", ⟨some (fun x y => np.bitwise_and y x)⟩),
        ("__ror__", ⟨some (fun x y => np.bitwise_or y x)⟩),
        ("__rxor__", ⟨some (fun x y => np.bitwise_xor y x)⟩) ],
    readonly := true,
    as_attrs := false }

/-- `unary_magic_config` from the source. -/
def unary_magic_config (np : NumpyUnaryOps V) : Config (USettings V) :=
  { items :=
      [ ("__neg__", ⟨some np.negative⟩),
        ("__pos__", ⟨some np.positive⟩),
        ("__abs__", ⟨some np.absolute⟩),
        ("__invert__", ⟨some np.invert⟩) ],
    readonly := true,
    as_attrs := false }

/-- The type of `translate_func` for binary attachment:
`(self, other, func) -> result`. -/
def BTranslate (V : Type) : Type := V → V → (V → V → V) → V

/-- The type of `translate_func` for unary attachment: `(self, func) -> result`. -/
def UTranslate (V : Type) : Type := V → (V → V) → V

/-- The closure `new_method` installed by `attach_binary_magic_methods.wrapper`:
it carries its default-argument bindings `_translate_func = translate_func`
and `_func = func`, independently of later loop iterations. -/
structure BMethod (V : Type) where
  translate_func : BTranslate V
  func : V → V → V

/-- Invoking an installed binary method with just `self` and `other`: the
default bindings are used, and the body returns
`_translate_func(self, other, _func)`. -/
def BMethod.call (m : BMethod V) (self other : V) : V :=
  m.translate_func self other m.func

/-- Invoking an installed binary method with an explicit third positional
argument: the caller-supplied function overrides the default `_translate_func`
while `_func` keeps its captured default. -/
def BMethod.callOverride (m : BMethod V) (self other : V) (tf : BTranslate V) : V :=
  tf self other m.func

/-- The closure `new_method` installed by `attach_unary_magic_methods.wrapper`. -/
structure UMethod (V : Type) where
  translate_func : UTranslate V
  func : V → V

/-- Invoking an installed unary method with just `self`: returns
`_translate_func(self, _func)`. -/
def UMethod.call (m : UMethod V) (self : V) : V :=
  m.translate_func self m.func

/-- Invoking an installed unary method with an explicit second positional
argument overriding `_translate_func`. -/
def UMethod.callOverride (m : UMethod V) (self : V) (tf : UTranslate V) : V :=
  tf self m.func

/-- A Python class viewed as its (binary magic method) attribute namespace. -/
def BCls (V : Type) : Type := String → Option (BMethod V)

/-- A Python class viewed as its (unary magic method) attribute namespace. -/
def UCls (V : Type) : Type := String → Option (UMethod V)

/-- The empty attribute namespace: a class defining none of the magic methods. -/
def emptyBCls : BCls V := fun _ => none

/-- The empty attribute namespace, unary view. -/
def emptyUCls : UCls V := fun _ => none

/-- `setattr(cls, target_name, new_method)`: overwrite or add one attribute. -/
def setattrB (cls : BCls V) (name : String) (m : BMethod V) : BCls V :=
  fun k => if k = name then some m else cls k

/-- `setattr`, unary view. -/
def setattrU (cls : UCls V) (name : String) (m : UMethod V) : UCls V :=
  fun k => if k = name then some m else cls k

/-- The loop of `attach_binary_magic_methods.wrapper`: iterate the catalog in
order; for each entry read `settings['func']` (a missing key raises `KeyError`
and stops the loop, leaving attributes already installed in place since
`setattr` mutated the class), build `new_method` with its default bindings and
install it. Returns the class state after the loop and the raised exception,
if any. -/
def wrapperB (translate_func : BTranslate V) :
    List (String × BSettings V) → BCls V → BCls V × Option PyError
  | [], cls => (cls, none)
  | (target_name, settings) :: rest, cls =>
    match settings.func with
    | none => (cls, some (PyError.keyError "func"))
    | some func =>
        wrapperB translate_func rest (setattrB cls target_name ⟨translate_func, func⟩)

/-- The loop of `attach_unary_magic_methods.wrapper`. -/
def wrapperU (translate_func : UTranslate V) :
    List (String × USettings V) → UCls V → UCls V × Option PyError
  | [], cls => (cls, none)
  | (target_name, settings) :: rest, cls =>
    match settings.func with
    | none => (cls, some (PyError.keyError "func"))
    | some func =>
        wrapperU translate_func rest (setattrU cls target_name ⟨translate_func, func⟩)

/-- `attach_binary_magic_methods(translate_func, config)`: defaults `config`
to `binary_magic_config` and returns the decorator `wrapper`; no validation
happens at this point — the body before `wrapper` only substitutes the
default config. -/
def attach_binary_magic_methods (np : NumpyOps V) (translate_func : BTranslate V)
    (config : Option (Config (BSettings V))) : BCls V → BCls V × Option PyError :=
  let cfg : Config (BSettings V) :=
    match config with
    | none => binary_magic_config np
    | some c => c
  wrapperB translate_func cfg.items

/-- `attach_unary_magic_methods(translate_func, config)`. -/
def attach_unary_magic_methods (np : NumpyUnaryOps V) (translate_func : UTranslate V)
    (config : Option (Config (USettings V))) : UCls V → UCls V × Option PyError :=
  let cfg : Config (USettings V) :=
    match config with
    | none => unary_magic_config np
    | some c => c
  wrapperU translate_func cfg.items

/-- Combination function looked up by name in a binary catalog (the composite
of Python `config[name]` and `settings['func']`). -/
def cfgFunc (cfg : Config (BSettings V)) (name : String) : Option (V → V → V) :=
  (cfg.items.lookup name).bind BSettings.func

/-- Combination function looked up by name in a unary catalog. -/
def ucfgFunc (cfg : Config (USettings V)) (name : String) : Option (V → V) :=
  (cfg.items.lookup name).bind USettings.func

end Vbt

namespace Vbt

variable {V : Type}

/-- A catalog is well formed when every settings dict carries the `func` key
(so the wrapper loop raises no `KeyError`). -/
def wfB (entries : List (String × BSettings V)) : Prop :=
  entries.all (fun e => e.2.func.isSome) = true

/-- Unary counterpart of `wfB`. -/
def wfU (entries : List (String × USettings V)) : Prop :=
  entries.all (fun e => e.2.func.isSome) = true

instance (entries : List (String × BSettings V)) : Decidable (wfB entries) := by
  unfold wfB; infer_instance

instance (entries : List (String × USettings V)) : Decidable (wfU entries) := by
  unfold wfU; infer_instance

/-- The combination function that the wrapper loop leaves bound at a given
name: the `func` of the last catalog entry with that key, if any. -/
def lastFuncB : List (String × BSettings V) → String → Option (V → V → V)
  | [], _ => none
  | (nm, s) :: rest, k =>
    match lastFuncB rest k with
    | some f => some f
    | none => if k = nm then s.func else none

/-- Unary counterpart of `lastFuncB`. -/
def lastFuncU : List (String × USettings V) → String → Option (V → V)
  | [], _ => none
  | (nm, s) :: rest, k =>
    match lastFuncU rest k with
    | some f => some f
    | none => if k = nm then s.func else none

theorem wrapperB_wf_eq (tf : BTranslate V) :
    ∀ (entries : List (String × BSettings V)), wfB entries → ∀ cls : BCls V,
      wrapperB tf entries cls =
        (fun k => match lastFuncB entries k with
          | some f => some (BMethod.mk tf f)
          | none => cls k, none)
  | [], _, cls => rfl
  | (nm, s) :: rest, h, cls => by
    have h' : s.func.isSome = true ∧ wfB rest := by
      unfold wfB at h ⊢
      simpa using h
    obtain ⟨f, hf⟩ := Option.isSome_iff_exists.mp h'.1
    have ih := wrapperB_wf_eq tf rest h'.2 (setattrB cls nm ⟨tf, f⟩)
    rw [wrapperB, hf]
    show wrapperB tf rest (setattrB cls nm ⟨tf, f⟩) = _
    rw [ih]
    refine Prod.ext ?_ rfl
    funext k
    show (match lastFuncB rest k with
      | some g => some (BMethod.mk tf g)
      | none => setattrB cls nm ⟨tf, f⟩ k) = _
    cases hrest : lastFuncB rest k with
    | some g => simp [lastFuncB, hrest]
    | none =>
      simp only [lastFuncB, hrest, setattrB]
      by_cases hk : k = nm
      · simp [hk, hf]
      · simp [hk]

theorem wrapperU_wf_eq (tf : UTranslate V) :
    ∀ (entries : List (String × USettings V)), wfU entries → ∀ cls : UCls V,
      wrapperU tf entries cls =
        (fun k => match lastFuncU entries k with
          | some f => some (UMethod.mk tf f)
          | none => cls k, none)
  | [], _, cls => rfl
  | (nm, s) :: rest, h, cls => by
    have h' : s.func.isSome = true ∧ wfU rest := by
      unfold wfU at h ⊢
      simpa using h
    obtain ⟨f, hf⟩ := Option.isSome_iff_exists.mp h'.1
    have ih := wrapperU_wf_eq tf rest h'.2 (setattrU cls nm ⟨tf, f⟩)
    rw [wrapperU, hf]
    show wrapperU tf rest (setattrU cls nm ⟨tf, f⟩) = _
    rw [ih]
    refine Prod.ext ?_ rfl
    funext k
    show (match lastFuncU rest k with
      | some g => some (UMethod.mk tf g)
      | none => setattrU cls nm ⟨tf, f⟩ k) = _
    cases hrest : lastFuncU rest k with
    | some g => simp [lastFuncU, hrest]
    | none =>
      simp only [lastFuncU, hrest, setattrU]
      by_cases hk : k = nm
      · simp [hk, hf]
      · simp [hk]

theorem lastFuncB_of_not_mem {k : String} :
    ∀ {entries : List (String × BSettings V)},
      k ∉ entries.map Prod.fst → lastFuncB entries k = none
  | [], _ => rfl
  | (nm, s) :: rest, h => by
    have hk : k ≠ nm := by
      intro hkk
      exact h (by simp [hkk])
    have hrest : k ∉ rest.map Prod.fst := by
      intro hm
      exact h (by simp [hm])
    simp [lastFuncB, lastFuncB_of_not_mem hrest, hk]

theorem lastFuncU_of_not_mem {k : String} :
    ∀ {entries : List (String × USettings V)},
      k ∉ entries.map Prod.fst → lastFuncU entries k = none
  | [], _ => rfl
  | (nm, s) :: rest, h => by
    have hk : k ≠ nm := by
      intro hkk
      exact h (by simp [hkk])
    have hrest : k ∉ rest.map Prod.fst := by
      intro hm
      exact h (by simp [hm])
    simp [lastFuncU, lastFuncU_of_not_mem hrest, hk]

theorem lastFuncB_of_mem {nm : String} {s : BSettings V} :
    ∀ {entries : List (String × BSettings V)},
      (entries.map Prod.fst).Nodup → (nm, s) ∈ entries → lastFuncB entries nm = s.func
  | [], _, hmem => absurd hmem (List.not_mem_nil _)
  | (nm', s') :: rest, hnd, hmem => by
    rw [List.map_cons, List.nodup_cons] at hnd
    rcases List.mem_cons.mp hmem with heq | hmem'
    · injection heq with h1 h2
      subst h1
      subst h2
      simp [lastFuncB, lastFuncB_of_not_mem hnd.1]
    · have ih := lastFuncB_of_mem hnd.2 hmem'
      have hin : nm ∈ rest.map Prod.fst := List.mem_map.mpr ⟨(nm, s), hmem', rfl⟩
      have hne : nm ≠ nm' := fun hkk => hnd.1 (hkk ▸ hin)
      cases hs : s.func with
      | none => simp [lastFuncB, ih, hs, hne]
      | some f => simp [lastFuncB, ih, hs]

theorem lastFuncU_of_mem {nm : String} {s : USettings V} :
    ∀ {entries : List (String × USettings V)},
      (entries.map Prod.fst).Nodup → (nm, s) ∈ entries → lastFuncU entries nm = s.func
  | [], _, hmem => absurd hmem (List.not_mem_nil _)
  | (nm', s') :: rest, hnd, hmem => by
    rw [List.map_cons, List.nodup_cons] at hnd
    rcases List.mem_cons.mp hmem with heq | hmem'
    · injection heq with h1 h2
      subst h1
      subst h2
      simp [lastFuncU, lastFuncU_of_not_mem hnd.1]
    · have ih := lastFuncU_of_mem hnd.2 hmem'
      have hin : nm ∈ rest.map Prod.fst := List.mem_map.mpr ⟨(nm, s), hmem', rfl⟩
      have hne : nm ≠ nm' := fun hkk => hnd.1 (hkk ▸ hin)
      cases hs : s.func with
      | none => simp [lastFuncU, ih, hs, hne]
      | some f => simp [lastFuncU, ih, hs]

end Vbt

namespace Vbt

variable {V : Type}

/-- If a catalog is a well-formed prefix followed by an entry without `func`,
the wrapper loop installs the prefix, raises `KeyError` at the offending
entry, and returns the class state reached so far. -/
theorem wrapperB_append_missing (tf : BTranslate V) (nm : String)
    (rest : List (String × BSettings V)) :
    ∀ (good : List (String × BSettings V)), wfB good → ∀ cls : BCls V,
      wrapperB tf (good ++ (nm, ⟨none⟩) :: rest) cls
        = ((wrapperB tf good cls).1, some (PyError.keyError "func"))
  | [], _, cls => rfl
  | (nm0, s0) :: good, h, cls => by
    have h' : s0.func.isSome = true ∧ wfB good := by
      unfold wfB at h ⊢
      simpa using h
    obtain ⟨f0, hf0⟩ := Option.isSome_iff_exists.mp h'.1
    have ih := wrapperB_append_missing tf nm rest good h'.2 (setattrB cls nm0 ⟨tf, f0⟩)
    show wrapperB tf (((nm0, s0) :: good) ++ (nm, ⟨none⟩) :: rest) cls = _
    rw [List.cons_append, wrapperB, hf0]
    show wrapperB tf (good ++ (nm, ⟨none⟩) :: rest) (setattrB cls nm0 ⟨tf, f0⟩) = _
    rw [ih, wrapperB, hf0]

/-- Unary counterpart of `wrapperB_append_missing`. -/
theorem wrapperU_append_missing (tf : UTranslate V) (nm : String)
    (rest : List (String × USettings V)) :
    ∀ (good : List (String × USettings V)), wfU good → ∀ cls : UCls V,
      wrapperU tf (good ++ (nm, ⟨none⟩) :: rest) cls
        = ((wrapperU tf good cls).1, some (PyError.keyError "func"))
  | [], _, cls => rfl
  | (nm0, s0) :: good, h, cls => by
    have h' : s0.func.isSome = true ∧ wfU good := by
      unfold wfU at h ⊢
      simpa using h
    obtain ⟨f0, hf0⟩ := Option.isSome_iff_exists.mp h'.1
    have ih := wrapperU_append_missing tf nm rest good h'.2 (setattrU cls nm0 ⟨tf, f0⟩)
    show wrapperU tf (((nm0, s0) :: good) ++ (nm, ⟨none⟩) :: rest) cls = _
    rw [List.cons_append, wrapperU, hf0]
    show wrapperU tf (good ++ (nm, ⟨none⟩) :: rest) (setattrU cls nm0 ⟨tf, f0⟩) = _
    rw [ih, wrapperU, hf0]

/-- A concrete instantiation of the numpy binary ufuncs on integers (booleans
encoded as 0/1, as numpy comparisons produce boolean arrays), used to run the
embedding on closed inputs. -/
def intOps : NumpyOps Int :=
  { equal := fun a b => if a = b then 1 else 0,
    not_equal := fun a b => if a = b then 0 else 1,
    less := fun a b => if a < b then 1 else 0,
    greater := fun a b => if b < a then 1 else 0,
    less_equal := fun a b => if a ≤ b then 1 else 0,
    greater_equal := fun a b => if b ≤ a then 1 else 0,
    add := fun a b => a + b,
    subtract := fun a b => a - b,
    multiply := fun a b => a * b,
    power := fun a b => a ^ b.toNat,
    mod := fun a b => a % b,
    floor_divide := fun a b => a / b,
    true_divide := fun a b => a / b,
    bitwise_and := fun a b => Int.ofNat (a.toNat &&& b.toNat),
    bitwise_or := fun a b => Int.ofNat (a.toNat ||| b.toNat),
    bitwise_xor := fun a b => Int.ofNat (a.toNat ^^^ b.toNat) }

/-- A concrete instantiation of the numpy unary ufuncs on integers. -/
def intUnaryOps : NumpyUnaryOps Int :=
  { negative := fun a => -a,
    positive := fun a => a,
    absolute := fun a => |a|,
    invert := fun a => -a - 1 }

/-- The simplest conforming binary translate function on integers: unwrap
nothing, apply the combination function directly. -/
def idTranslateB : BTranslate Int := fun self other f => f self other

/-- The simplest conforming unary translate function on integers. -/
def idTranslateU : UTranslate Int := fun self f => f self

/-- A 3-d NumPy array of dtype uint8, embedded as its shape plus a total cell
function; a stored value is reduced mod 2^8 as the uint8 cast does. -/
structure Array3d where
  h : Nat
  w : Nat
  d : Nat
  data : Nat → Nat → Nat → Nat

/-- `hstack_image_arrays(a, b)` from the source: allocate a
`(max(h1, h2), w1 + w2, d)` array filled with 255, copy `a` into the top-left
block and `b` into the top block of the next `w2` columns (the two assigned
regions are disjoint). -/
def hstack_image_arrays (a b : Array3d) : Array3d :=
  { h := max a.h b.h,
    w := a.w + b.w,
    d := a.d,
    data := fun i j k =>
      if i < a.h ∧ j < a.w then a.data i j k % 256
      else if i < b.h ∧ a.w ≤ j ∧ j < a.w + b.w then b.data i (j - a.w) k % 256
      else 255 }

/-- `vstack_image_arrays(a, b)` from the source: allocate a
`(h1 + h2, max(w1, w2), d)` array filled with 255, copy `a` into the top-left
block and `b` into the left block of the next `h2` rows. -/
def vstack_image_arrays (a b : Array3d) : Array3d :=
  { h := a.h + b.h,
    w := max a.w b.w,
    d := a.d,
    data := fun i j k =>
      if i < a.h ∧ j < a.w then a.data i j k % 256
      else if a.h ≤ i ∧ i < a.h + b.h ∧ j < b.w then b.data (i - a.h) j k % 256
      else 255 }

end Vbt

namespace Vbt

variable {V : Type}

/-- C1: after the type modifier returned by `attach_binary_magic_methods` is
applied to a class, invoking any operator named in the catalog on an instance
and an operand returns exactly `translate(self, other, func)` where `func` is
that catalog entry's combination function; analogously, a method installed by
`attach_unary_magic_methods` returns `translate(self, func)`. -/
theorem c1_attached_operator_delegates (np : NumpyOps V) (unp : NumpyUnaryOps V) :
    (∀ (tf : BTranslate V) (cfg : Config (BSettings V)) (cls : BCls V)
        (name : String) (s : BSettings V) (f : V → V → V),
        wfB cfg.items → (cfg.items.map Prod.fst).Nodup →
        (name, s) ∈ cfg.items → s.func = some f →
        ∀ self other : V,
          ((attach_binary_magic_methods np tf (some cfg) cls).1 name).map
              (fun m => m.call self other)
            = some (tf self other f))
  ∧ (∀ (tf : UTranslate V) (cfg : Config (USettings V)) (cls : UCls V)
        (name : String) (s : USettings V) (f : V → V),
        wfU cfg.items → (cfg.items.map Prod.fst).Nodup →
        (name, s) ∈ cfg.items → s.func = some f →
        ∀ self : V,
          ((attach_unary_magic_methods unp tf (some cfg) cls).1 name).map
              (fun m => m.call self)
            = some (tf self f)) := by
  constructor
  · intro tf cfg cls name s f hwf hnd hmem hf self other
    have hw := wrapperB_wf_eq tf cfg.items hwf cls
    have hl : lastFuncB cfg.items name = some f := hf ▸ lastFuncB_of_mem hnd hmem
    show ((wrapperB tf cfg.items cls).1 name).map (fun m => m.call self other) = _
    rw [hw]
    simp [hl, BMethod.call]
  · intro tf cfg cls name s f hwf hnd hmem hf self
    have hw := wrapperU_wf_eq tf cfg.items hwf cls
    have hl : lastFuncU cfg.items name = some f := hf ▸ lastFuncU_of_mem hnd hmem
    show ((wrapperU tf cfg.items cls).1 name).map (fun m => m.call self) = _
    rw [hw]
    simp [hl, UMethod.call]

/-- Closed instantiation of `c1_attached_operator_delegates` on integers with
the built-in catalogs. -/
theorem c1_attached_operator_delegates_witness :
    ((attach_binary_magic_methods intOps idTranslateB
        (some (binary_magic_config intOps)) emptyBCls).1 "__eq__").map
        (fun m => m.call 2 3) = some (idTranslateB 2 3 intOps.equal)
  ∧ ((attach_unary_magic_methods intUnaryOps idTranslateU
        (some (unary_magic_config intUnaryOps)) emptyUCls).1 "__neg__").map
        (fun m => m.call 5) = some (idTranslateU 5 intUnaryOps.negative) :=
  ⟨(c1_attached_operator_delegates intOps intUnaryOps).1 idTranslateB
      (binary_magic_config intOps) emptyBCls "__eq__" ⟨some intOps.equal⟩ intOps.equal
      (by decide) (by decide) (List.mem_cons_self _ _) rfl 2 3,
   (c1_attached_operator_delegates intOps intUnaryOps).2 idTranslateU
      (unary_magic_config intUnaryOps) emptyUCls "__neg__" ⟨some intUnaryOps.negative⟩
      intUnaryOps.negative (by decide) (by decide) (List.mem_cons_self _ _) rfl 5⟩

/-- C2: in the built-in binary catalog, every reflected operator's combination
function equals the corresponding direct operator's function with its two
arguments swapped, for all array-like operands. -/
theorem c2_reflected_funcs_swap (np : NumpyOps V) (a b : V) :
    (cfgFunc (binary_magic_config np) "__radd__").map (fun f => f a b)
        = (cfgFunc (binary_magic_config np) "__add__").map (fun f => f b a)
  ∧ (cfgFunc (binary_magic_config np) "__rsub__").map (fun f => f a b)
        = (cfgFunc (binary_magic_config np) "__sub__").map (fun f => f b a)
  ∧ (cfgFunc (binary_magic_config np) "__rmul__").map (fun f => f a b)
        = (cfgFunc (binary_magic_config np) "__mul__").map (fun f => f b a)
  ∧ (cfgFunc (binary_magic_config np) "__rpow__").map (fun f => f a b)
        = (cfgFunc (binary_magic_config np) "__pow__").map (fun f => f b a)
  ∧ (cfgFunc (binary_magic_config np) "__rmod__").map (fun f => f a b)
        = (cfgFunc (binary_magic_config np) "__mod__").map (fun f => f b a)
  ∧ (cfgFunc (binary_magic_config np) "__rfloordiv__").map (fun f => f a b)
        = (cfgFunc (binary_magic_config np) "__floordiv__").map (fun f => f b a)
  ∧ (cfgFunc (binary_magic_config np) "__rtruediv__").map (fun f => f a b)
        = (cfgFunc (binary_magic_config np) "__truediv__").map (fun f => f b a)
  ∧ (cfgFunc (binary_magic_config np) "__rand__").map (fun f => f a b)
        = (cfgFunc (binary_magic_config np) "__and__").map (fun f => f b a)
  ∧ (cfgFunc (binary_magic_config np) "__ror__").map (fun f => f a b)
        = (cfgFunc (binary_magic_config np) "__or__").map (fun f => f b a)
  ∧ (cfgFunc (binary_magic_config np) "__rxor__").map (fun f => f a b)
        = (cfgFunc (binary_magic_config np) "__xor__").map (fun f => f b a) :=
  ⟨rfl, rfl, rfl, rfl, rfl, rfl, rfl, rfl, rfl, rfl⟩

/-- C5: each installed operator is an independently closed-over binding of its
own `(translate, func)` pair: in a catalog with two or more entries, the
method installed for the first entry still carries that entry's `func` after
all later iterations have installed theirs. -/
theorem c5_independent_closures :
    (∀ (tf : BTranslate V) (cls : BCls V) (nm : String) (f : V → V → V)
        (e2 : String × BSettings V) (rest : List (String × BSettings V)),
        wfB ((nm, ⟨some f⟩) :: e2 :: rest) →
        ((((nm, (⟨some f⟩ : BSettings V)) :: e2 :: rest).map Prod.fst).Nodup) →
        (wrapperB tf ((nm, ⟨some f⟩) :: e2 :: rest) cls).1 nm = some ⟨tf, f⟩)
  ∧ (∀ (tf : UTranslate V) (cls : UCls V) (nm : String) (f : V → V)
        (e2 : String × USettings V) (rest : List (String × USettings V)),
        wfU ((nm, ⟨some f⟩) :: e2 :: rest) →
        ((((nm, (⟨some f⟩ : USettings V)) :: e2 :: rest).map Prod.fst).Nodup) →
        (wrapperU tf ((nm, ⟨some f⟩) :: e2 :: rest) cls).1 nm = some ⟨tf, f⟩) := by
  constructor
  · intro tf cls nm f e2 rest hwf hnd
    have hw := wrapperB_wf_eq tf _ hwf cls
    have hmem : (nm, (⟨some f⟩ : BSettings V)) ∈ (nm, (⟨some f⟩ : BSettings V)) :: e2 :: rest :=
      List.mem_cons_self _ _
    have hl := lastFuncB_of_mem hnd hmem
    rw [hw]
    simp [hl]
  · intro tf cls nm f e2 rest hwf hnd
    have hw := wrapperU_wf_eq tf _ hwf cls
    have hmem : (nm, (⟨some f⟩ : USettings V)) ∈ (nm, (⟨some f⟩ : USettings V)) :: e2 :: rest :=
      List.mem_cons_self _ _
    have hl := lastFuncU_of_mem hnd hmem
    rw [hw]
    simp [hl]

/-- Closed instantiation of `c5_independent_closures`: installing a second
operator leaves the first one bound to its own combination function. -/
theorem c5_independent_closures_witness :
    (wrapperB idTranslateB
        [("__add__", ⟨some intOps.add⟩), ("__sub__", ⟨some intOps.subtract⟩)] emptyBCls).1
        "__add__" = some ⟨idTranslateB, intOps.add⟩
  ∧ (wrapperU idTranslateU
        [("__neg__", ⟨some intUnaryOps.negative⟩), ("__abs__", ⟨some intUnaryOps.absolute⟩)]
        emptyUCls).1 "__neg__" = some ⟨idTranslateU, intUnaryOps.negative⟩ :=
  ⟨c5_independent_closures.1 idTranslateB emptyBCls "__add__" intOps.add
      ("__sub__", ⟨some intOps.subtract⟩) [] (by decide) (by decide),
   c5_independent_closures.2 idTranslateU emptyUCls "__neg__" intUnaryOps.negative
      ("__abs__", ⟨some intUnaryOps.absolute⟩) [] (by decide) (by decide)⟩

/-- C9: the installed operator methods accept the captured `_translate_func`
and `_func` as overridable default arguments: invoking an installed binary
operator with an explicit third argument `g` returns `g(self, other, func)`
instead of `translate(self, other, func)`. -/
theorem c9_default_bindings_overridable
    (np : NumpyOps V) (tf : BTranslate V) (cfg : Config (BSettings V)) (cls : BCls V)
    (name : String) (s : BSettings V) (f : V → V → V)
    (hwf : wfB cfg.items) (hnd : (cfg.items.map Prod.fst).Nodup)
    (hmem : (name, s) ∈ cfg.items) (hf : s.func = some f)
    (self other : V) (g : BTranslate V) :
    ((attach_binary_magic_methods np tf (some cfg) cls).1 name).map
        (fun m => m.callOverride self other g)
      = some (g self other f) := by
  have hw := wrapperB_wf_eq tf cfg.items hwf cls
  have hl : lastFuncB cfg.items name = some f := hf ▸ lastFuncB_of_mem hnd hmem
  show ((wrapperB tf cfg.items cls).1 name).map (fun m => m.callOverride self other g) = _
  rw [hw]
  simp [hl, BMethod.callOverride]

/-- Closed instantiation of `c9_default_bindings_overridable`: overriding the
translate binding with an argument-swapping function is honoured. -/
theorem c9_default_bindings_overridable_witness :
    ((attach_binary_magic_methods intOps idTranslateB
        (some (binary_magic_config intOps)) emptyBCls).1 "__sub__").map
        (fun m => m.callOverride 10 3 (fun s o f => f o s))
      = some ((fun (s o : Int) (f : Int → Int → Int) => f o s) 10 3 intOps.subtract) :=
  c9_default_bindings_overridable intOps idTranslateB (binary_magic_config intOps)
    emptyBCls "__sub__" ⟨some intOps.subtract⟩ intOps.subtract
    (by decide) (by decide) (by simp [binary_magic_config]) rfl 10 3 (fun s o f => f o s)

end Vbt

namespace Vbt

variable {V : Type}

/-- C3 (amended): the factory functions perform no validation when called —
the body before `wrapper` only substitutes the default catalog. A catalog
entry missing `func` is detected only when the returned modifier is applied
to a class, where the lookup `settings['func']` raises `KeyError` (not a
configuration error) upon reaching the offending entry; the translate
function's arity is never checked. -/
theorem c3_missing_func_errors_at_application :
    (∀ (np : NumpyOps V) (tf : BTranslate V) (good : List (String × BSettings V))
        (nm : String) (rest : List (String × BSettings V)) (cls : BCls V)
        (ro at1 : Bool),
        wfB good →
        attach_binary_magic_methods np tf
            (some ⟨good ++ (nm, ⟨none⟩) :: rest, ro, at1⟩) cls
          = ((wrapperB tf good cls).1, some (PyError.keyError "func")))
  ∧ (∀ (unp : NumpyUnaryOps V) (tf : UTranslate V) (good : List (String × USettings V))
        (nm : String) (rest : List (String × USettings V)) (cls : UCls V)
        (ro at1 : Bool),
        wfU good →
        attach_unary_magic_methods unp tf
            (some ⟨good ++ (nm, ⟨none⟩) :: rest, ro, at1⟩) cls
          = ((wrapperU tf good cls).1, some (PyError.keyError "func"))) := by
  constructor
  · intro np tf good nm rest cls ro at1 hwf
    exact wrapperB_append_missing tf nm rest good hwf cls
  · intro unp tf good nm rest cls ro at1 hwf
    exact wrapperU_append_missing tf nm rest good hwf cls

/-- C3 counterexample: with a catalog entry missing `func`, the factory call
itself succeeds and returns an applicable modifier; only applying that
modifier to a class produces an error, and it is a `KeyError` — there is no
eager configuration error at modifier-construction time. -/
theorem c3_counterexample :
    attach_binary_magic_methods intOps idTranslateB
        (some ⟨[("__add__", ⟨none⟩)], true, false⟩) emptyBCls
      = (emptyBCls, some (PyError.keyError "func"))
  ∧ attach_unary_magic_methods intUnaryOps idTranslateU
        (some ⟨[("__neg__", ⟨none⟩)], true, false⟩) emptyUCls
      = (emptyUCls, some (PyError.keyError "func")) :=
  ⟨rfl, rfl⟩

/-- Closed instantiation of `c3_missing_func_errors_at_application`. -/
theorem c3_missing_func_errors_at_application_witness :
    attach_binary_magic_methods intOps idTranslateB
        (some ⟨[("__mul__", ⟨some intOps.multiply⟩), ("__add__", ⟨none⟩)], true, false⟩)
        emptyBCls
      = ((wrapperB idTranslateB [("__mul__", ⟨some intOps.multiply⟩)] emptyBCls).1,
         some (PyError.keyError "func"))
  ∧ attach_unary_magic_methods intUnaryOps idTranslateU
        (some ⟨[("__neg__", ⟨none⟩)], true, false⟩) emptyUCls
      = ((wrapperU idTranslateU [] emptyUCls).1, some (PyError.keyError "func")) :=
  ⟨c3_missing_func_errors_at_application.1 intOps idTranslateB
      [("__mul__", ⟨some intOps.multiply⟩)] "__add__" [] emptyBCls true false (by decide),
   c3_missing_func_errors_at_application.2 intUnaryOps idTranslateU
      [] "__neg__" [] emptyUCls true false (by decide)⟩

/-- C4 (amended): when a catalog entry lacks `func`, the error is raised on
reaching that entry, after the attributes of all preceding well-formed
entries have already been installed on the (mutated) class; the class is left
unmodified only when the offending entry is the first one iterated. -/
theorem c4_missing_func_partial_install :
    (∀ (np : NumpyOps V) (tf : BTranslate V) (nm0 : String) (f0 : V → V → V)
        (nm1 : String) (rest : List (String × BSettings V)) (cls : BCls V),
        (attach_binary_magic_methods np tf
            (some ⟨(nm0, ⟨some f0⟩) :: (nm1, ⟨none⟩) :: rest, true, false⟩) cls).1 nm0
          = some ⟨tf, f0⟩
        ∧ (attach_binary_magic_methods np tf
            (some ⟨(nm0, ⟨some f0⟩) :: (nm1, ⟨none⟩) :: rest, true, false⟩) cls).2
          = some (PyError.keyError "func"))
  ∧ (∀ (np : NumpyOps V) (tf : BTranslate V) (nm : String)
        (rest : List (String × BSettings V)) (cls : BCls V),
        attach_binary_magic_methods np tf
            (some ⟨(nm, ⟨none⟩) :: rest, true, false⟩) cls
          = (cls, some (PyError.keyError "func"))) := by
  constructor
  · intro np tf nm0 f0 nm1 rest cls
    constructor
    · show setattrB cls nm0 ⟨tf, f0⟩ nm0 = _
      simp [setattrB]
    · rfl
  · intro np tf nm rest cls
    rfl

/-- C4 counterexample: a catalog whose first entry is well formed and whose
second entry is missing `func`; applying the modifier raises, yet `__add__`
has been installed on the class — it is not left completely unmodified. -/
theorem c4_counterexample :
    (attach_binary_magic_methods intOps idTranslateB
        (some ⟨[("__add__", ⟨some intOps.add⟩), ("__sub__", ⟨none⟩)], true, false⟩)
        emptyBCls).2 = some (PyError.keyError "func")
  ∧ (emptyBCls : BCls Int) "__add__" = none
  ∧ (attach_binary_magic_methods intOps idTranslateB
        (some ⟨[("__add__", ⟨some intOps.add⟩), ("__sub__", ⟨none⟩)], true, false⟩)
        emptyBCls).1 "__add__" = some ⟨idTranslateB, intOps.add⟩ := by
  refine ⟨rfl, rfl, ?_⟩
  show setattrB emptyBCls "__add__" ⟨idTranslateB, intOps.add⟩ "__add__" = _
  simp [setattrB]

/-- C7: applying the same type modifier (same translate function, same
catalog) twice to the same class equals applying it once: each second
installation overwrites the first with an identical method and no further
effects accumulate. -/
theorem c7_attach_idempotent :
    (∀ (np : NumpyOps V) (tf : BTranslate V) (cfg : Config (BSettings V)) (cls : BCls V),
        wfB cfg.items →
        attach_binary_magic_methods np tf (some cfg)
            (attach_binary_magic_methods np tf (some cfg) cls).1
          = attach_binary_magic_methods np tf (some cfg) cls)
  ∧ (∀ (unp : NumpyUnaryOps V) (tf : UTranslate V) (cfg : Config (USettings V)) (cls : UCls V),
        wfU cfg.items →
        attach_unary_magic_methods unp tf (some cfg)
            (attach_unary_magic_methods unp tf (some cfg) cls).1
          = attach_unary_magic_methods unp tf (some cfg) cls) := by
  constructor
  · intro np tf cfg cls hwf
    show wrapperB tf cfg.items (wrapperB tf cfg.items cls).1 = wrapperB tf cfg.items cls
    rw [wrapperB_wf_eq tf cfg.items hwf cls]
    rw [wrapperB_wf_eq tf cfg.items hwf _]
    refine Prod.ext ?_ rfl
    funext k
    cases hk : lastFuncB cfg.items k with
    | some f => simp [hk]
    | none => simp [hk]
  · intro unp tf cfg cls hwf
    show wrapperU tf cfg.items (wrapperU tf cfg.items cls).1 = wrapperU tf cfg.items cls
    rw [wrapperU_wf_eq tf cfg.items hwf cls]
    rw [wrapperU_wf_eq tf cfg.items hwf _]
    refine Prod.ext ?_ rfl
    funext k
    cases hk : lastFuncU cfg.items k with
    | some f => simp [hk]
    | none => simp [hk]

/-- Closed instantiation of `c7_attach_idempotent` with the built-in catalogs
on integers. -/
theorem c7_attach_idempotent_witness :
    wfB (binary_magic_config intOps).items
  ∧ attach_binary_magic_methods intOps idTranslateB (some (binary_magic_config intOps))
        (attach_binary_magic_methods intOps idTranslateB
          (some (binary_magic_config intOps)) emptyBCls).1
      = attach_binary_magic_methods intOps idTranslateB
          (some (binary_magic_config intOps)) emptyBCls
  ∧ wfU (unary_magic_config intUnaryOps).items
  ∧ attach_unary_magic_methods intUnaryOps idTranslateU (some (unary_magic_config intUnaryOps))
        (attach_unary_magic_methods intUnaryOps idTranslateU
          (some (unary_magic_config intUnaryOps)) emptyUCls).1
      = attach_unary_magic_methods intUnaryOps idTranslateU
          (some (unary_magic_config intUnaryOps)) emptyUCls :=
  ⟨by decide,
   c7_attach_idempotent.1 intOps idTranslateB (binary_magic_config intOps) emptyBCls (by decide),
   by decide,
   c7_attach_idempotent.2 intUnaryOps idTranslateU (unary_magic_config intUnaryOps) emptyUCls
     (by decide)⟩

end Vbt

namespace Vbt

variable {V : Type}

/-- C6: the built-in binary catalog contains exactly the six comparisons, the
seven arithmetic operators with their reflected counterparts, and the three
bitwise operators with their reflected counterparts, each mapped to the
corresponding elementwise combination function (reflected ones with operands
swapped); the built-in unary catalog contains exactly negate, plus,
absolute-value, and bitwise-invert. -/
theorem c6_builtin_catalog_contents (np : NumpyOps V) (unp : NumpyUnaryOps V) (a b : V) :
    (binary_magic_config np).items.map Prod.fst
      = ["__eq__", "__ne__", "__lt__", "__gt__", "__le__", "__ge__",
         "__add__", "__sub__", "__mul__", "__pow__", "__mod__",
         "__floordiv__", "__truediv__",
         "__radd__", "__rsub__", "__rmul__", "__rpow__", "__rmod__",
         "__rfloordiv__", "__rtruediv__",
         "__and__", "__or__", "__xor__", "__rand__", "__ror__", "__rxor__"]
  ∧ (unary_magic_config unp).items.map Prod.fst
      = ["__neg__", "__pos__", "__abs__", "__invert__"]
  ∧ (cfgFunc (binary_magic_config np) "__eq__").map (fun f => f a b) = some (np.equal a b)
  ∧ (cfgFunc (binary_magic_config np) "__ne__").map (fun f => f a b) = some (np.not_equal a b)
  ∧ (cfgFunc (binary_magic_config np) "__lt__").map (fun f => f a b) = some (np.less a b)
  ∧ (cfgFunc (binary_magic_config np) "__gt__").map (fun f => f a b) = some (np.greater a b)
  ∧ (cfgFunc (binary_magic_config np) "__le__").map (fun f => f a b) = some (np.less_equal a b)
  ∧ (cfgFunc (binary_magic_config np) "__ge__").map (fun f => f a b)
      = some (np.greater_equal a b)
  ∧ (cfgFunc (binary_magic_config np) "__add__").map (fun f => f a b) = some (np.add a b)
  ∧ (cfgFunc (binary_magic_config np) "__sub__").map (fun f => f a b) = some (np.subtract a b)
  ∧ (cfgFunc (binary_magic_config np) "__mul__").map (fun f => f a b) = some (np.multiply a b)
  ∧ (cfgFunc (binary_magic_config np) "__pow__").map (fun f => f a b) = some (np.power a b)
  ∧ (cfgFunc (binary_magic_config np) "__mod__").map (fun f => f a b) = some (np.mod a b)
  ∧ (cfgFunc (binary_magic_config np) "__floordiv__").map (fun f => f a b)
      = some (np.floor_divide a b)
  ∧ (cfgFunc (binary_magic_config np) "__truediv__").map (fun f => f a b)
      = some (np.true_divide a b)
  ∧ (cfgFunc (binary_magic_config np) "__radd__").map (fun f => f a b) = some (np.add b a)
  ∧ (cfgFunc (binary_magic_config np) "__rsub__").map (fun f => f a b) = some (np.subtract b a)
  ∧ (cfgFunc (binary_magic_config np) "__rmul__").map (fun f => f a b) = some (np.multiply b a)
  ∧ (cfgFunc (binary_magic_config np) "__rpow__").map (fun f => f a b) = some (np.power b a)
  ∧ (cfgFunc (binary_magic_config np) "__rmod__").map (fun f => f a b) = some (np.mod b a)
  ∧ (cfgFunc (binary_magic_config np) "__rfloordiv__").map (fun f => f a b)
      = some (np.floor_divide b a)
  ∧ (cfgFunc (binary_magic_config np) "__rtruediv__").map (fun f => f a b)
      = some (np.true_divide b a)
  ∧ (cfgFunc (binary_magic_config np) "__and__").map (fun f => f a b)
      = some (np.bitwise_and a b)
  ∧ (cfgFunc (binary_magic_config np) "__or__").map (fun f => f a b) = some (np.bitwise_or a b)
  ∧ (cfgFunc (binary_magic_config np) "__xor__").map (fun f => f a b)
      = some (np.bitwise_xor a b)
  ∧ (cfgFunc (binary_magic_config np) "__rand__").map (fun f => f a b)
      = some (np.bitwise_and b a)
  ∧ (cfgFunc (binary_magic_config np) "__ror__").map (fun f => f a b) = some (np.bitwise_or b a)
  ∧ (cfgFunc (binary_magic_config np) "__rxor__").map (fun f => f a b)
      = some (np.bitwise_xor b a)
  ∧ (ucfgFunc (unary_magic_config unp) "__neg__").map (fun f => f a) = some (unp.negative a)
  ∧ (ucfgFunc (unary_magic_config unp) "__pos__").map (fun f => f a) = some (unp.positive a)
  ∧ (ucfgFunc (unary_magic_config unp) "__abs__").map (fun f => f a) = some (unp.absolute a)
  ∧ (ucfgFunc (unary_magic_config unp) "__invert__").map (fun f => f a)
      = some (unp.invert a) :=
  ⟨rfl, rfl, rfl, rfl, rfl, rfl, rfl, rfl, rfl, rfl, rfl, rfl, rfl, rfl, rfl, rfl,
   rfl, rfl, rfl, rfl, rfl, rfl, rfl, rfl, rfl, rfl, rfl, rfl, rfl, rfl, rfl, rfl⟩

/-- C8: the built-in catalogs are constructed read-only, and every attempted
mutation (item assignment or deletion) fails; the catalogs being plain values
of the decoration loop, no attach operation changes their contents. -/
theorem c8_builtin_catalogs_readonly (np : NumpyOps V) (unp : NumpyUnaryOps V)
    (k : String) (v : BSettings V) (u : USettings V) :
    (binary_magic_config np).readonly = true
  ∧ (unary_magic_config unp).readonly = true
  ∧ (binary_magic_config np).setItem k v = Except.error PyError.readOnlyUpdate
  ∧ (binary_magic_config np).delItem k = Except.error PyError.readOnlyUpdate
  ∧ (unary_magic_config unp).setItem k u = Except.error PyError.readOnlyUpdate
  ∧ (unary_magic_config unp).delItem k = Except.error PyError.readOnlyUpdate :=
  ⟨rfl, rfl, rfl, rfl, rfl, rfl⟩

end Vbt

namespace Vbt

/-- C10: `hstack_image_arrays a b` has shape `(max(h1, h2), w1 + w2, d)` and
unsigned 8-bit cells; its top-left `h1 × w1` block equals `a`, its top block
of columns `w1 .. w1 + w2 - 1` equals `b`, and every remaining cell is 255;
`vstack_image_arrays` satisfies the transposed analogue with shape
`(h1 + h2, max(w1, w2), d)`. -/
theorem c10_stack_image_arrays (a b : Array3d) (hd : b.d = a.d)
    (ha : ∀ i j k, i < a.h → j < a.w → k < a.d → a.data i j k < 256)
    (hb : ∀ i j k, i < b.h → j < b.w → k < b.d → b.data i j k < 256) :
    (hstack_image_arrays a b).h = max a.h b.h
  ∧ (hstack_image_arrays a b).w = a.w + b.w
  ∧ (hstack_image_arrays a b).d = a.d
  ∧ (∀ i j k, i < a.h → j < a.w → k < a.d →
      (hstack_image_arrays a b).data i j k = a.data i j k)
  ∧ (∀ i j k, i < b.h → j < b.w → k < a.d →
      (hstack_image_arrays a b).data i (a.w + j) k = b.data i j k)
  ∧ (∀ i j k, i < max a.h b.h → j < a.w + b.w → k < a.d →
      ¬(i < a.h ∧ j < a.w) → ¬(i < b.h ∧ a.w ≤ j ∧ j < a.w + b.w) →
      (hstack_image_arrays a b).data i j k = 255)
  ∧ (∀ i j k, (hstack_image_arrays a b).data i j k < 256)
  ∧ (vstack_image_arrays a b).h = a.h + b.h
  ∧ (vstack_image_arrays a b).w = max a.w b.w
  ∧ (vstack_image_arrays a b).d = a.d
  ∧ (∀ i j k, i < a.h → j < a.w → k < a.d →
      (vstack_image_arrays a b).data i j k = a.data i j k)
  ∧ (∀ i j k, i < b.h → j < b.w → k < a.d →
      (vstack_image_arrays a b).data (a.h + i) j k = b.data i j k)
  ∧ (∀ i j k, i < a.h + b.h → j < max a.w b.w → k < a.d →
      ¬(i < a.h ∧ j < a.w) → ¬(a.h ≤ i ∧ i < a.h + b.h ∧ j < b.w) →
      (vstack_image_arrays a b).data i j k = 255)
  ∧ (∀ i j k, (vstack_image_arrays a b).data i j k < 256) := by
  refine ⟨rfl, rfl, rfl, ?_, ?_, ?_, ?_, rfl, rfl, rfl, ?_, ?_, ?_, ?_⟩
  · intro i j k hi hj hk
    show (if i < a.h ∧ j < a.w then a.data i j k % 256
          else if i < b.h ∧ a.w ≤ j ∧ j < a.w + b.w then b.data i (j - a.w) k % 256
          else 255) = a.data i j k
    rw [if_pos ⟨hi, hj⟩]
    exact Nat.mod_eq_of_lt (ha i j k hi hj hk)
  · intro i j k hi hj hk
    show (if i < a.h ∧ a.w + j < a.w then a.data i (a.w + j) k % 256
          else if i < b.h ∧ a.w ≤ a.w + j ∧ a.w + j < a.w + b.w then
            b.data i (a.w + j - a.w) k % 256
          else 255) = b.data i j k
    rw [if_neg (by omega), if_pos ⟨hi, by omega, by omega⟩, Nat.add_sub_cancel_left]
    exact Nat.mod_eq_of_lt (hb i j k hi hj (by rw [hd]; exact hk))
  · intro i j k _ _ _ h1 h2
    show (if i < a.h ∧ j < a.w then a.data i j k % 256
          else if i < b.h ∧ a.w ≤ j ∧ j < a.w + b.w then b.data i (j - a.w) k % 256
          else 255) = 255
    rw [if_neg h1, if_neg h2]
  · intro i j k
    show (if i < a.h ∧ j < a.w then a.data i j k % 256
          else if i < b.h ∧ a.w ≤ j ∧ j < a.w + b.w then b.data i (j - a.w) k % 256
          else 255) < 256
    split
    · exact Nat.mod_lt _ (by norm_num)
    · split
      · exact Nat.mod_lt _ (by norm_num)
      · norm_num
  · intro i j k hi hj hk
    show (if i < a.h ∧ j < a.w then a.data i j k % 256
          else if a.h ≤ i ∧ i < a.h + b.h ∧ j < b.w then b.data (i - a.h) j k % 256
          else 255) = a.data i j k
    rw [if_pos ⟨hi, hj⟩]
    exact Nat.mod_eq_of_lt (ha i j k hi hj hk)
  · intro i j k hi hj hk
    show (if a.h + i < a.h ∧ j < a.w then a.data (a.h + i) j k % 256
          else if a.h ≤ a.h + i ∧ a.h + i < a.h + b.h ∧ j < b.w then
            b.data (a.h + i - a.h) j k % 256
          else 255) = b.data i j k
    rw [if_neg (by omega), if_pos ⟨by omega, by omega, hj⟩, Nat.add_sub_cancel_left]
    exact Nat.mod_eq_of_lt (hb i j k hi hj (by rw [hd]; exact hk))
  · intro i j k _ _ _ h1 h2
    show (if i < a.h ∧ j < a.w then a.data i j k % 256
          else if a.h ≤ i ∧ i < a.h + b.h ∧ j < b.w then b.data (i - a.h) j k % 256
          else 255) = 255
    rw [if_neg h1, if_neg h2]
  · intro i j k
    show (if i < a.h ∧ j < a.w then a.data i j k % 256
          else if a.h ≤ i ∧ i < a.h + b.h ∧ j < b.w then b.data (i - a.h) j k % 256
          else 255) < 256
    split
    · exact Nat.mod_lt _ (by norm_num)
    · split
      · exact Nat.mod_lt _ (by norm_num)
      · norm_num

/-- A concrete 1 by 1 by 1 test image whose single cell is 7. -/
def imgA : Array3d := ⟨1, 1, 1, fun _ _ _ => 7⟩

/-- A concrete 1 by 1 by 1 test image whose single cell is 9. -/
def imgB : Array3d := ⟨1, 1, 1, fun _ _ _ => 9⟩

/-- Closed instantiation of `c10_stack_image_arrays` on two 1 by 1 by 1
images: `a` lands top-left, `b` lands beside (below) it, and the shapes are
as specified. -/
theorem c10_stack_image_arrays_witness :
    (hstack_image_arrays imgA imgB).data 0 0 0 = 7
  ∧ (hstack_image_arrays imgA imgB).data 0 1 0 = 9
  ∧ (vstack_image_arrays imgA imgB).data 1 0 0 = 9
  ∧ (vstack_image_arrays imgA imgB).w = 1 := by
  obtain ⟨-, -, -, hA, hB, -, -, -, hvw, -, -, hvB, -, -⟩ :=
    c10_stack_image_arrays imgA imgB rfl
      (fun _ _ _ _ _ _ => by norm_num [imgA]) (fun _ _ _ _ _ _ => by norm_num [imgB])
  exact ⟨hA 0 0 0 (by decide) (by decide) (by decide),
         hB 0 0 0 (by decide) (by decide) (by decide),
         hvB 0 0 0 (by decide) (by decide) (by decide),
         hvw.trans (by decide)⟩

end Vbt
